import Mathlib

/-!
Verification of the DVF aggregation engine (`backend/services/dvf_loader.py`).

The Python module loads a `;`-separated snapshot file into an in-memory tuple
of row dictionaries, caches it, and serves three queries: available years, an
arrondissement-level summary and a per-arrondissement time series.  This file
embeds those functions shallowly: strings stay strings, Python `float` values
are modelled as exact rationals `ℚ`, Python `int` as `ℤ`, dictionaries become
structures, and fallible parsing returns `Option`/`Except`.
-/

namespace DVF

/-! ### Models of the Python builtins used by the loader

Core `String` functions such as `String.trim` are defined by well-founded
recursion on byte positions and do not reduce, so the Python string builtins
are modelled structurally on `List Char`. -/

/-- Numeric value of a list of decimal digit characters (most significant first). -/
def digitsVal (l : List Char) : ℕ :=
  l.foldl (fun a c => 10 * a + (c.toNat - 48)) 0

/-- Model of Python `str.strip()`: remove leading and trailing whitespace. -/
def pyStrip (s : String) : String :=
  String.mk (((s.toList.dropWhile Char.isWhitespace).reverse.dropWhile
    Char.isWhitespace).reverse)

/-- ASCII lower-casing of one character, as Python `str.lower()` does on ASCII. -/
def charLower (c : Char) : Char :=
  if 'A' ≤ c ∧ c ≤ 'Z' then Char.ofNat (c.toNat + 32) else c

/-- Model of Python `str.lower()` (restricted to ASCII case mapping). -/
def pyLower (s : String) : String :=
  String.mk (s.toList.map charLower)

/-- Model of Python `s[-2:]`: the last two characters, or all of a shorter string. -/
def takeRight2 (s : String) : String :=
  String.mk (s.toList.drop (s.toList.length - 2))

/-- Model of Python `str.zfill(width)`: left-pad with `'0'` to `width`
characters, inserting the padding after a leading sign; strings at least
`width` long are returned unchanged (no truncation). -/
def zfillChars (l : List Char) (width : ℕ) : List Char :=
  if width ≤ l.length then l
  else
    match l with
    | c :: cs =>
      if c = '+' ∨ c = '-' then c :: (List.replicate (width - l.length) '0' ++ cs)
      else List.replicate (width - l.length) '0' ++ (c :: cs)
    | [] => List.replicate width '0'

/-- `str(code).zfill(width)` on a string argument. -/
def zfill (s : String) (width : ℕ) : String :=
  String.mk (zfillChars s.toList width)

/-- Model of Python `int(str)` on optionally signed decimal strings
(surrounding whitespace stripped, as `int` does). -/
def pyInt (s : String) : Option ℤ :=
  match (pyStrip s).toList with
  | '-' :: body => if body ≠ [] ∧ body.all Char.isDigit then some (-(digitsVal body : ℤ)) else none
  | '+' :: body => if body ≠ [] ∧ body.all Char.isDigit then some (digitsVal body : ℤ) else none
  | body => if body ≠ [] ∧ body.all Char.isDigit then some (digitsVal body : ℤ) else none

/-- Value of an optionally fractional decimal literal `intpart [. fracpart]`,
with at least one digit overall, as an exact rational. -/
def decimalVal (sign : ℤ) (body : List Char) : Option ℚ :=
  let intPart := body.takeWhile Char.isDigit
  let rest := body.dropWhile Char.isDigit
  match rest with
  | [] => if intPart = [] then none else some (mkRat (sign * digitsVal intPart) 1)
  | '.' :: frac =>
    if frac.all Char.isDigit ∧ ¬(intPart = [] ∧ frac = []) then
      some (mkRat (sign * (digitsVal intPart * 10 ^ frac.length + digitsVal frac))
        (10 ^ frac.length))
    else none
  | _ => none

/-- Model of Python `float(str)` on plain decimal literals (sign, digits,
optional fraction; surrounding whitespace stripped).  Exact rational value. -/
def pyFloat (s : String) : Option ℚ :=
  match (pyStrip s).toList with
  | '-' :: body => decimalVal (-1) body
  | '+' :: body => decimalVal 1 body
  | body => decimalVal 1 body

/-- Model of Python `int()` applied to a float value: truncation toward zero. -/
def truncQ (q : ℚ) : ℤ :=
  q.num.tdiv q.den

/-- `int(float(s))`, the coercion the loader applies to `annee` and `nb_ventes`. -/
def intOfFloatStr (s : String) : Option ℤ :=
  (pyFloat s).map truncQ

/-! ### Record store (`_load_rows`, `refresh_cache`) -/

/-- One raw line of the snapshot file, already split on `;` into the five
columns the loader reads. -/
structure RawRow where
  code_commune : String
  annee : String
  type_local : String
  prix_m2_med : String
  nb_ventes : String
deriving DecidableEq

/-- One normalized in-memory record, the dictionary built per row by
`_load_rows`. -/
structure Row where
  code_commune : String
  arrondissement : String
  arrondissement_num : ℤ
  annee : ℤ
  type_local : String
  prix_m2_med : ℚ
  nb_ventes : ℤ
deriving DecidableEq

/-- Failure of the whole load when a row cannot be coerced (the Python
`ValueError` escaping `_load_rows`, named `MalformedRecordError` by the spec). -/
inductive LoadError where
  | malformedRecord
deriving DecidableEq

/-- Parse one raw row exactly as the loop body of `_load_rows` does:
strip the commune code, take its last two characters as the arrondissement,
parse it as an integer, and coerce the numeric columns. -/
def parseRow (raw : RawRow) : Option Row :=
  match pyInt (takeRight2 (pyStrip raw.code_commune)), intOfFloatStr raw.annee,
      pyFloat raw.prix_m2_med, intOfFloatStr raw.nb_ventes with
  | some num, some yr, some prix, some nb =>
    some { code_commune := pyStrip raw.code_commune
           arrondissement := takeRight2 (pyStrip raw.code_commune)
           arrondissement_num := num
           annee := yr
           type_local := pyStrip raw.type_local
           prix_m2_med := prix
           nb_ventes := nb }
  | _, _, _, _ => none

/-- Parse every row or fail: the `for` loop of `_load_rows` raises out of the
whole function on the first bad row, producing no partial list. -/
def mapOption {α β : Type} (f : α → Option β) : List α → Option (List β)
  | [] => some []
  | a :: l =>
    match f a with
    | none => none
    | some b =>
      match mapOption f l with
      | none => none
      | some bs => some (b :: bs)

/-- `_load_rows` on the snapshot's rows: all rows parse, or the load fails. -/
def load_rows (snapshot : List RawRow) : Except LoadError (List Row) :=
  match mapOption parseRow snapshot with
  | some rows => Except.ok rows
  | none => Except.error LoadError.malformedRecord

/-- Process-wide state of the record store: the snapshot file's rows and the
`lru_cache` slot of `_load_rows`. -/
structure Store where
  file : List RawRow
  cache : Option (List Row)
deriving DecidableEq

/-- A call of the cached `_load_rows`: return the cached sequence, or read the
file, filling the cache only on success (`lru_cache` does not cache raises). -/
def loadOp (s : Store) : Except LoadError (List Row × Store) :=
  match s.cache with
  | some rows => Except.ok (rows, s)
  | none =>
    match load_rows s.file with
    | Except.ok rows => Except.ok (rows, { file := s.file, cache := some rows })
    | Except.error e => Except.error e

/-- `_load_rows.cache_clear()`: drop the cached sequence. -/
def invalidate (s : Store) : Store :=
  { s with cache := none }

/-- `refresh_cache`: clear the cache, then load again. -/
def refresh_cache (s : Store) : Except LoadError Store :=
  (loadOp (invalidate s)).map Prod.snd

/-! ### Aggregation engine -/

/-- `get_available_years`: sorted distinct years. -/
def get_available_years (rows : List Row) : List ℤ :=
  ((rows.map Row.annee).dedup).mergeSort (fun a b => decide (a ≤ b))

/-- `target_type = type_local.lower() if type_local else None`: the empty
string is falsy in Python, so it yields no constraint. -/
def targetType (type_local : Option String) : Option String :=
  match type_local with
  | some t => if t = "" then none else some (pyLower t)
  | none => none

/-- The per-row test of `_filter_rows`' loop: both `continue` guards pass. -/
def rowPass (year : Option ℤ) (target : Option String) (row : Row) : Bool :=
  (match year with
   | some y => decide (row.annee = y)
   | none => true) &&
  (match target with
   | some t => decide (pyLower row.type_local = t)
   | none => true)

/-- `_filter_rows(year, type_local)`: keep matching rows in load order. -/
def filter_rows (rows : List Row) (year : Option ℤ) (type_local : Option String) :
    List Row :=
  rows.filter (rowPass year (targetType type_local))

/-- The filter exactly as claim C4 words it: a record passes when `year` is
absent or equal and `property_type` is absent or case-insensitively equal,
with no special case for a present-but-empty string. -/
def filter_rows_claimed (rows : List Row) (year : Option ℤ)
    (type_local : Option String) : List Row :=
  rows.filter (fun r =>
    (match year with
     | some y => decide (r.annee = y)
     | none => true) &&
    (match type_local with
     | some t => decide (pyLower r.type_local = pyLower t)
     | none => true))

/-- `statistics.median`: sort ascending; middle element for odd length, mean of
the two middle elements for even length. -/
def pymedian (data : List ℚ) : ℚ :=
  let sorted := data.mergeSort (fun a b => decide (a ≤ b))
  if sorted.length % 2 = 1 then sorted.getD (sorted.length / 2) 0
  else (sorted.getD (sorted.length / 2 - 1) 0 + sorted.getD (sorted.length / 2) 0) / 2

/-- The median as the spec words it, written against an independent ascending
sort: after ascending numeric sort, the middle value for an odd count and the
mean of the two middle values for an even count. -/
def specMedian (data : List ℚ) : ℚ :=
  let sorted := List.insertionSort (· ≤ ·) data
  if sorted.length % 2 = 1 then sorted.getD (sorted.length / 2) 0
  else (sorted.getD (sorted.length / 2 - 1) 0 + sorted.getD (sorted.length / 2) 0) / 2

/-- Round half to even, as Python `round` does on exact values; stated with
integer arithmetic on the fractional part so that it evaluates. -/
def roundHalfEven (q : ℚ) : ℤ :=
  let f : ℤ := q.num.ediv q.den
  let rnum : ℤ := q.num - f * q.den
  if 2 * rnum < (q.den : ℤ) then f
  else if (q.den : ℤ) < 2 * rnum then f + 1
  else if f % 2 = 0 then f else f + 1

/-- Python `round(x, 2)`: round half to even at two decimal places
(`100 * q` is formed as `mkRat` on the numerator to keep it reducible). -/
def round2 (q : ℚ) : ℚ :=
  mkRat (roundHalfEven (mkRat (100 * q.num) q.den)) 100

/-- The reducer `round(median(prix_values), 2) if prix_values else 0` shared by
both aggregation payload loops. -/
def reduce_prix (vals : List ℚ) : ℚ :=
  if vals = [] then 0 else round2 (pymedian vals)

/-- The same reducer as the spec words it, over `specMedian`. -/
def reduce_prix_spec (vals : List ℚ) : ℚ :=
  if vals = [] then 0 else round2 (specMedian vals)

/-- Keys of a list in order of first occurrence: the iteration order of a
Python dict populated by the grouping loops. -/
def keysInOrder {α κ : Type} [DecidableEq κ] (key : α → κ) : List α → List κ
  | [] => []
  | a :: l => key a :: (keysInOrder key l).filter (fun q => !(decide (q = key a)))

/-- The grouping accumulator: each first-occurrence key paired with the
sublist of elements carrying it, in order. -/
def fibers {α κ : Type} [DecidableEq κ] (key : α → κ) (l : List α) :
    List (κ × List α) :=
  (keysInOrder key l).map (fun k => (k, l.filter (fun a => decide (key a = k))))

/-- Grouping key of `get_arrondissement_summary`:
`(code_commune, annee, arrondissement_num)`. -/
def rowKey (r : Row) : String × ℤ × ℤ :=
  (r.code_commune, r.annee, r.arrondissement_num)

/-- One element of `get_arrondissement_summary`'s payload. -/
structure SummaryRec where
  code_commune : String
  annee : ℤ
  arrondissement : String
  arrondissement_num : ℤ
  prix_m2_med : ℚ
  nb_ventes : ℤ
  label : String
deriving DecidableEq

/-- The f-string `f"{arr_num:02d}"`: decimal digits zero-padded to width 2. -/
def format02d (n : ℤ) : String :=
  let s := toString n
  if s.length < 2 then "0" ++ s else s

/-- Build one summary payload entry from a group, as the second loop of
`get_arrondissement_summary` does; `arrondissement` is re-assigned on every
row of the group, so the last row's value stands. -/
def summaryOfFiber (kf : (String × ℤ × ℤ) × List Row) : SummaryRec :=
  { code_commune := kf.1.1
    annee := kf.1.2.1
    arrondissement := kf.2.foldl (fun _ r => r.arrondissement) ""
    arrondissement_num := kf.1.2.2
    prix_m2_med := reduce_prix (kf.2.map Row.prix_m2_med)
    nb_ventes := (kf.2.map Row.nb_ventes).sum
    label := format02d kf.1.2.2 ++ "e arrondissement" }

/-- The sort key `lambda row: (row["annee"], row["arrondissement_num"])` as a
boolean order for the stable sort. -/
def summaryLE (a b : SummaryRec) : Bool :=
  decide (a.annee < b.annee) ||
    (decide (a.annee = b.annee) && decide (a.arrondissement_num ≤ b.arrondissement_num))

/-- `get_arrondissement_summary(year, type_local)`: filter, group by
`(code_commune, annee, arrondissement_num)`, reduce, sort. -/
def get_arrondissement_summary (rows : List Row) (year : Option ℤ)
    (type_local : Option String) : List SummaryRec :=
  ((fibers rowKey (filter_rows rows year type_local)).map summaryOfFiber).mergeSort
    summaryLE

/-- One element of `get_arrondissement_timeseries`' payload. -/
structure TimeseriesRec where
  annee : ℤ
  prix_m2_med : ℚ
  nb_ventes : ℤ
deriving DecidableEq

/-- The rows feeding the time series: filtered by type only, then restricted
to the zero-filled commune code. -/
def ts_rows (rows : List Row) (code_commune : String) (type_local : Option String) :
    List Row :=
  (filter_rows rows none type_local).filter
    (fun r => decide (r.code_commune = zfill code_commune 5))

/-- Build one time-series payload entry from a year group. -/
def tsOfFiber (kf : ℤ × List Row) : TimeseriesRec :=
  { annee := kf.1
    prix_m2_med := reduce_prix (kf.2.map Row.prix_m2_med)
    nb_ventes := (kf.2.map Row.nb_ventes).sum }

/-- `get_arrondissement_timeseries(code_commune, type_local)`: normalize the
code, filter, group by year, reduce, sort by year. -/
def get_arrondissement_timeseries (rows : List Row) (code_commune : String)
    (type_local : Option String) : List TimeseriesRec :=
  ((fibers Row.annee (ts_rows rows code_commune type_local)).map tsOfFiber).mergeSort
    (fun a b => decide (a.annee ≤ b.annee))

/-! ### The engine operations as served through the cached store -/

/-- `get_available_years()` as called by the API: loads lazily, then computes. -/
def query_years (s : Store) : Except LoadError (List ℤ) :=
  (loadOp s).map (fun p => get_available_years p.1)

/-- `get_arrondissement_summary` as called by the API. -/
def query_summary (s : Store) (year : Option ℤ) (type_local : Option String) :
    Except LoadError (List SummaryRec) :=
  (loadOp s).map (fun p => get_arrondissement_summary p.1 year type_local)

/-- `get_arrondissement_timeseries` as called by the API. -/
def query_timeseries (s : Store) (code : String) (type_local : Option String) :
    Except LoadError (List TimeseriesRec) :=
  (loadOp s).map (fun p => get_arrondissement_timeseries p.1 code type_local)

/-- A store whose cache, when filled, holds exactly what loading its file
produces — every state reachable through `loadOp`/`invalidate` satisfies it. -/
def wellFormed (s : Store) : Prop :=
  ∀ c, s.cache = some c → load_rows s.file = Except.ok c

/-! ### Concrete sample data used to exercise the theorems -/

deriving instance DecidableEq for Except

unseal List.merge List.mergeSort Rat.add Rat.mul Rat.inv

/-- A well-formed snapshot row (an apartment aggregate in district 1). -/
def wraw1 : RawRow :=
  { code_commune := "75101", annee := "2021", type_local := "Appartement"
    prix_m2_med := "30.0", nb_ventes := "5" }

/-- A second well-formed snapshot row for the same group. -/
def wraw2 : RawRow :=
  { code_commune := "75101", annee := "2021", type_local := "Maison"
    prix_m2_med := "50.0", nb_ventes := "3" }

/-- A snapshot row whose price column fails numeric coercion. -/
def badRaw : RawRow :=
  { code_commune := "75101", annee := "2021", type_local := "Maison"
    prix_m2_med := "abc", nb_ventes := "3" }

/-- The parsed form of `wraw1`. -/
def wrow1 : Row :=
  { code_commune := "75101", arrondissement := "01", arrondissement_num := 1
    annee := 2021, type_local := "Appartement", prix_m2_med := 30, nb_ventes := 5 }

/-- The parsed form of `wraw2`. -/
def wrow2 : Row :=
  { code_commune := "75101", arrondissement := "01", arrondissement_num := 1
    annee := 2021, type_local := "Maison", prix_m2_med := 50, nb_ventes := 3 }

/-- The loaded sample sequence. -/
def wrows : List Row := [wrow1, wrow2]

/-- The single summary record produced from `wrows`: median of `[30, 50]`,
total of `5 + 3` sales. -/
def wsum : SummaryRec :=
  { code_commune := "75101", annee := 2021, arrondissement := "01"
    arrondissement_num := 1, prix_m2_med := 40, nb_ventes := 8
    label := "01e arrondissement" }

/-- A loaded record whose commune code has six characters. -/
def row6 : Row :=
  { code_commune := "123456", arrondissement := "56", arrondissement_num := 56
    annee := 2021, type_local := "Appartement", prix_m2_med := 30, nb_ventes := 5 }

/-- A loaded record with the five-character commune code `"00101"`. -/
def row101 : Row :=
  { code_commune := "00101", arrondissement := "01", arrondissement_num := 1
    annee := 2021, type_local := "Appartement", prix_m2_med := 30, nb_ventes := 5 }

/-- The store holding the sample snapshot with a cold cache. -/
def wstore : Store := { file := [wraw1, wraw2], cache := none }

/-- The same store after `refresh_cache`. -/
def wstore2 : Store := { file := [wraw1, wraw2], cache := some wrows }

/-! ### Helper lemmas -/

theorem mapOption_eq_none {α β : Type} {f : α → Option β} :
    ∀ {l : List α}, (∃ a ∈ l, f a = none) → mapOption f l = none := by
  intro l
  induction l with
  | nil => rintro ⟨a, ha, -⟩; simp at ha
  | cons a l ih =>
    rintro ⟨b, hb, hfb⟩
    rcases List.mem_cons.1 hb with rfl | hb2
    · simp [mapOption, hfb]
    · cases hfa : f a with
      | none => simp [mapOption, hfa]
      | some c => simp [mapOption, hfa, ih ⟨b, hb2, hfb⟩]

theorem mapOption_mem {α β : Type} {f : α → Option β} :
    ∀ {l : List α} {bs : List β}, mapOption f l = some bs →
      ∀ b ∈ bs, ∃ a ∈ l, f a = some b := by
  intro l
  induction l with
  | nil =>
    intro bs h b hb
    simp [mapOption] at h
    subst h
    simp at hb
  | cons a l ih =>
    intro bs h b hb
    unfold mapOption at h
    cases hfa : f a with
    | none => rw [hfa] at h; simp at h
    | some c =>
      rw [hfa] at h
      cases hml : mapOption f l with
      | none => rw [hml] at h; simp at h
      | some cs =>
        rw [hml] at h
        simp only [Option.some.injEq] at h
        subst h
        rcases List.mem_cons.1 hb with rfl | hb2
        · exact ⟨a, List.mem_cons_self a l, hfa⟩
        · obtain ⟨a2, ha2, hfa2⟩ := ih hml b hb2
          exact ⟨a2, List.mem_cons_of_mem a ha2, hfa2⟩

theorem load_rows_ok_iff {snapshot : List RawRow} {rows : List Row} :
    load_rows snapshot = Except.ok rows ↔ mapOption parseRow snapshot = some rows := by
  unfold load_rows
  cases h : mapOption parseRow snapshot <;> simp

theorem parseRow_fields {raw : RawRow} {r : Row} (h : parseRow raw = some r) :
    r.arrondissement = takeRight2 r.code_commune ∧
      pyInt (takeRight2 r.code_commune) = some r.arrondissement_num := by
  unfold parseRow at h
  cases hnum : pyInt (takeRight2 (pyStrip raw.code_commune)) with
  | none => rw [hnum] at h; simp at h
  | some num =>
    rw [hnum] at h
    cases hyr : intOfFloatStr raw.annee with
    | none => rw [hyr] at h; simp at h
    | some yr =>
      rw [hyr] at h
      cases hprix : pyFloat raw.prix_m2_med with
      | none => rw [hprix] at h; simp at h
      | some prix =>
        rw [hprix] at h
        cases hnb : intOfFloatStr raw.nb_ventes with
        | none => rw [hnb] at h; simp at h
        | some nb =>
          rw [hnb] at h
          injection h with h
          subst h
          exact ⟨rfl, hnum⟩

theorem exists_of_mem_keysInOrder {α κ : Type} [DecidableEq κ] {key : α → κ} :
    ∀ {l : List α} {k : κ}, k ∈ keysInOrder key l → ∃ a ∈ l, key a = k := by
  intro l
  induction l with
  | nil => intro k h; simp [keysInOrder] at h
  | cons a l ih =>
    intro k h
    rw [keysInOrder] at h
    rcases List.mem_cons.1 h with rfl | h2
    · exact ⟨a, List.mem_cons_self a l, rfl⟩
    · obtain ⟨b, hb, hkb⟩ := ih (List.mem_filter.1 h2).1
      exact ⟨b, List.mem_cons_of_mem a hb, hkb⟩

theorem mem_keysInOrder_of_mem {α κ : Type} [DecidableEq κ] {key : α → κ} :
    ∀ {l : List α} {a : α}, a ∈ l → key a ∈ keysInOrder key l := by
  intro l
  induction l with
  | nil => intro a h; simp at h
  | cons b l ih =>
    intro a h
    rw [keysInOrder]
    rcases List.mem_cons.1 h with rfl | h2
    · exact List.mem_cons_self _ _
    · by_cases hk : key a = key b
      · rw [hk]; exact List.mem_cons_self _ _
      · refine List.mem_cons_of_mem _ (List.mem_filter.2 ⟨ih h2, ?_⟩)
        simp [hk]

theorem keysInOrder_nodup {α κ : Type} [DecidableEq κ] (key : α → κ) :
    ∀ (l : List α), (keysInOrder key l).Nodup := by
  intro l
  induction l with
  | nil => simp [keysInOrder]
  | cons a l ih =>
    rw [keysInOrder]
    refine List.nodup_cons.2 ⟨?_, List.Nodup.filter _ ih⟩
    intro hmem
    have h2 := (List.mem_filter.1 hmem).2
    simp at h2

theorem fiber_eq_filter {α κ : Type} [DecidableEq κ] {key : α → κ} {l : List α}
    {kf : κ × List α} (h : kf ∈ fibers key l) :
    kf.2 = l.filter (fun a => decide (key a = kf.1)) := by
  obtain ⟨k, hk, rfl⟩ := List.mem_map.1 h
  rfl

theorem fiber_key_mem {α κ : Type} [DecidableEq κ] {key : α → κ} {l : List α}
    {kf : κ × List α} (h : kf ∈ fibers key l) : kf.1 ∈ keysInOrder key l := by
  obtain ⟨k, hk, rfl⟩ := List.mem_map.1 h
  exact hk

theorem sum_map_filter_split {α : Type} (p : α → Bool) (f : α → ℤ) :
    ∀ (l : List α),
      ((l.filter p).map f).sum + ((l.filter (fun a => !(p a))).map f).sum
        = (l.map f).sum := by
  intro l
  induction l with
  | nil => simp
  | cons a l ih =>
    by_cases h : p a = true
    · simp [List.filter_cons, h]
      omega
    · simp [List.filter_cons, h]
      omega

theorem sum_over_partition {α κ : Type} [DecidableEq κ] (key : α → κ) (f : α → ℤ) :
    ∀ (ks : List κ), ks.Nodup → ∀ (l : List α), (∀ a ∈ l, key a ∈ ks) →
      (ks.map (fun k => ((l.filter (fun a => decide (key a = k))).map f).sum)).sum
        = (l.map f).sum := by
  intro ks
  induction ks with
  | nil =>
    intro _ l hl
    cases l with
    | nil => simp
    | cons a l => exact absurd (hl a (List.mem_cons_self a l)) (by simp)
  | cons k ks ih =>
    intro hnd l hl
    have hnk : k ∉ ks := (List.nodup_cons.1 hnd).1
    rw [List.map_cons, List.sum_cons]
    have hcov : ∀ a ∈ l.filter (fun a => !(decide (key a = k))), key a ∈ ks := by
      intro a ha
      have h1 := (List.mem_filter.1 ha).1
      have h2 := (List.mem_filter.1 ha).2
      rcases List.mem_cons.1 (hl a h1) with h3 | h3
      · exfalso; simp [h3] at h2
      · exact h3
    have hrw : (ks.map (fun q => ((l.filter (fun a => decide (key a = q))).map f).sum))
        = ks.map (fun q => (((l.filter (fun a => !(decide (key a = k)))).filter
            (fun a => decide (key a = q))).map f).sum) := by
      apply List.map_congr_left
      intro q hq
      have hqk : q ≠ k := fun hh => hnk (hh ▸ hq)
      rw [List.filter_filter]
      refine congrArg List.sum (congrArg (List.map f) (List.filter_congr ?_))
      intro a _
      by_cases h : key a = q
      · simp [h, hqk]
      · simp [h]
    rw [hrw, ih (List.nodup_cons.1 hnd).2 _ hcov]
    exact sum_map_filter_split (fun a => decide (key a = k)) f l

theorem sum_fibers {α κ : Type} [DecidableEq κ] (key : α → κ) (f : α → ℤ)
    (l : List α) :
    ((fibers key l).map (fun kf => (kf.2.map f).sum)).sum = (l.map f).sum := by
  rw [fibers, List.map_map]
  exact sum_over_partition key f (keysInOrder key l) (keysInOrder_nodup key l)
    l (fun a ha => mem_keysInOrder_of_mem ha)

theorem filter_rows_year_none (rows : List Row) (Y : ℤ) :
    filter_rows rows (some Y) none = rows.filter (fun r => decide (r.annee = Y)) := by
  unfold filter_rows
  apply List.filter_congr
  intro r _
  simp [rowPass, targetType]

theorem pymedian_eq_specMedian (data : List ℚ) : pymedian data = specMedian data := by
  unfold pymedian specMedian
  rw [List.mergeSort_eq_insertionSort]

theorem reduce_prix_eq_spec (vals : List ℚ) :
    reduce_prix vals = reduce_prix_spec vals := by
  unfold reduce_prix reduce_prix_spec
  rw [pymedian_eq_specMedian]

theorem loadOp_result (s : Store) (hwf : wellFormed s) (rows : List Row)
    (hl : load_rows s.file = Except.ok rows) :
    ∃ st, loadOp s = Except.ok (rows, st) := by
  cases hc : s.cache with
  | some c =>
    have h2 := hwf c hc
    rw [hl] at h2
    injection h2 with h2
    subst h2
    exact ⟨s, by simp [loadOp, hc]⟩
  | none => exact ⟨{ file := s.file, cache := some rows }, by simp [loadOp, hc, hl]⟩

/-! ### Claims -/

/-- C10: passing the empty string as the `property_type` argument is treated
as an absent filter: `_filter_rows`, `get_arrondissement_summary` and
`get_arrondissement_timeseries` return exactly what they return with the
argument absent. -/
theorem empty_property_type_means_no_filter (rows : List Row) (year : Option ℤ)
    (code : String) :
    filter_rows rows year (some "") = filter_rows rows year none
    ∧ get_arrondissement_summary rows year (some "") =
        get_arrondissement_summary rows year none
    ∧ get_arrondissement_timeseries rows code (some "") =
        get_arrondissement_timeseries rows code none := by
  have h : targetType (some "") = targetType none := rfl
  refine ⟨?_, ?_, ?_⟩
  · unfold filter_rows
    rw [h]
  · unfold get_arrondissement_summary filter_rows
    rw [h]
  · unfold get_arrondissement_timeseries ts_rows filter_rows
    rw [h]

/-- C4 counterexample: with `property_type = ""` the code treats the filter
as absent and keeps a `"Maison"` record, while the claim as stated would
compare `""` case-insensitively against the record's type and drop it. -/
theorem filter_empty_type_counterexample :
    filter_rows [wrow2] none (some "") ≠ filter_rows_claimed [wrow2] none (some "") := by
  decide

/-- C4 amended: `_filter_rows` returns exactly the records satisfying both
dimensions, where `property_type` constrains only when present and non-empty
(compared case-insensitively); results stay in load order. -/
theorem filter_rows_characterization (rows : List Row) (year : Option ℤ)
    (tl : Option String) :
    filter_rows rows year tl = rows.filter (fun r =>
      (match year with
       | some y => decide (r.annee = y)
       | none => true) &&
      (match tl with
       | some t => decide (t = "") || decide (pyLower r.type_local = pyLower t)
       | none => true)) := by
  unfold filter_rows
  apply List.filter_congr
  intro r _
  cases tl with
  | none => rfl
  | some t =>
    by_cases ht : t = ""
    · subst ht
      simp [rowPass, targetType]
    · simp [rowPass, targetType, ht]

/-- C5: when no loaded record's `commune_code` equals the normalized code,
`get_arrondissement_timeseries` returns the empty sequence (no error). -/
theorem timeseries_unknown_code_empty (rows : List Row) (code : String)
    (tl : Option String) (h : ∀ r ∈ rows, r.code_commune ≠ zfill code 5) :
    get_arrondissement_timeseries rows code tl = [] := by
  have hts : ts_rows rows code tl = [] := by
    apply List.filter_eq_nil_iff.2
    intro r hr
    have hrr : r ∈ rows := (List.mem_filter.1 hr).1
    simp [h r hrr]
  unfold get_arrondissement_timeseries
  rw [hts]
  rfl

/-- C5 witness: the unknown code `"99999"` yields the empty sequence on the
sample data. -/
theorem timeseries_unknown_code_empty_witness :
    get_arrondissement_timeseries wrows "99999" none = [] :=
  timeseries_unknown_code_empty wrows "99999" none (by decide)

/-- C7: one uncoercible row fails the whole load with `MalformedRecordError`:
no row sequence is ever returned, and the cached store-level load caches
nothing and surfaces the same error. -/
theorem malformed_record_fails_whole_load (snapshot : List RawRow)
    (h : ∃ raw ∈ snapshot, parseRow raw = none) :
    load_rows snapshot = Except.error LoadError.malformedRecord
    ∧ (∀ rows, load_rows snapshot ≠ Except.ok rows)
    ∧ loadOp { file := snapshot, cache := none } =
        Except.error LoadError.malformedRecord := by
  have hm : mapOption parseRow snapshot = none := mapOption_eq_none h
  have h1 : load_rows snapshot = Except.error LoadError.malformedRecord := by
    unfold load_rows
    rw [hm]
  refine ⟨h1, ?_, ?_⟩
  · intro rows hok
    rw [h1] at hok
    exact absurd hok (by simp)
  · simp [loadOp, h1]

/-- C7 witness: a snapshot whose second row has the uncoercible price
`"abc"` fails as a whole. -/
theorem malformed_record_fails_whole_load_witness :
    load_rows [wraw1, badRaw] = Except.error LoadError.malformedRecord :=
  (malformed_record_fails_whole_load [wraw1, badRaw]
    ⟨badRaw, by decide, by decide⟩).1

/-- C9: every loaded record's `district_code` (`arrondissement`) is the last
two characters of its `commune_code`, and `district_number`
(`arrondissement_num`) is their integer parse. -/
theorem loaded_district_fields_consistent (snapshot : List RawRow)
    (rows : List Row) (h : load_rows snapshot = Except.ok rows) :
    ∀ r ∈ rows, r.arrondissement = takeRight2 r.code_commune ∧
      pyInt (takeRight2 r.code_commune) = some r.arrondissement_num := by
  intro r hr
  obtain ⟨raw, hraw, hpr⟩ := mapOption_mem (load_rows_ok_iff.1 h) r hr
  exact parseRow_fields hpr

/-- C9 witness at the sample snapshot's first loaded record. -/
theorem loaded_district_fields_consistent_witness :
    wrow1.arrondissement = takeRight2 wrow1.code_commune ∧
      pyInt (takeRight2 wrow1.code_commune) = some wrow1.arrondissement_num :=
  loaded_district_fields_consistent [wraw1, wraw2] wrows (by decide) wrow1 (by decide)

/-- C2: the summary sequence is sorted ascending by the pair
`(annee, arrondissement_num)`, year first, district number breaking ties. -/
theorem summary_sorted_by_year_then_district (rows : List Row) (year : Option ℤ)
    (tl : Option String) :
    (get_arrondissement_summary rows year tl).Pairwise (fun a b =>
      a.annee < b.annee ∨ (a.annee = b.annee ∧
        a.arrondissement_num ≤ b.arrondissement_num)) := by
  have htrans : ∀ a b c : SummaryRec, summaryLE a b = true → summaryLE b c = true →
      summaryLE a c = true := by
    intro a b c hab hbc
    simp only [summaryLE, Bool.or_eq_true, Bool.and_eq_true, decide_eq_true_eq] at *
    omega
  have htotal : ∀ a b : SummaryRec, (summaryLE a b || summaryLE b a) = true := by
    intro a b
    simp only [summaryLE, Bool.or_eq_true, Bool.and_eq_true, decide_eq_true_eq]
    omega
  have hs := List.sorted_mergeSort htrans htotal
    ((fibers rowKey (filter_rows rows year tl)).map summaryOfFiber)
  unfold get_arrondissement_summary
  refine hs.imp ?_
  intro a b hab
  simp only [summaryLE, Bool.or_eq_true, Bool.and_eq_true, decide_eq_true_eq] at hab
  exact hab

/-- C1: every reported `prix_m2_med` — in the summary and in the time
series — is the spec's standard median of the group's contributing records'
medians rounded to two decimals; the reducer returns 0 on an empty list; and
contributing medians `[30, 50]` reduce to `40`. -/
theorem median_policy :
    (∀ (rows : List Row) (year : Option ℤ) (tl : Option String) rec,
      rec ∈ get_arrondissement_summary rows year tl →
      rec.prix_m2_med = reduce_prix_spec
        (((filter_rows rows year tl).filter (fun r =>
          decide (rowKey r =
            (rec.code_commune, rec.annee, rec.arrondissement_num)))).map
          Row.prix_m2_med))
    ∧ (∀ (rows : List Row) (code : String) (tl : Option String) rec,
      rec ∈ get_arrondissement_timeseries rows code tl →
      rec.prix_m2_med = reduce_prix_spec
        (((ts_rows rows code tl).filter
          (fun r => decide (r.annee = rec.annee))).map Row.prix_m2_med))
    ∧ reduce_prix [] = 0
    ∧ reduce_prix_spec [30, 50] = 40 := by
  refine ⟨?_, ?_, rfl, by decide⟩
  · intro rows year tl rec hrec
    unfold get_arrondissement_summary at hrec
    rw [List.mem_mergeSort] at hrec
    obtain ⟨kf, hkf, rfl⟩ := List.mem_map.1 hrec
    obtain ⟨k, hk, rfl⟩ := List.mem_map.1 hkf
    show reduce_prix _ = _
    rw [reduce_prix_eq_spec]
    rfl
  · intro rows code tl rec hrec
    unfold get_arrondissement_timeseries at hrec
    rw [List.mem_mergeSort] at hrec
    obtain ⟨kf, hkf, rfl⟩ := List.mem_map.1 hrec
    obtain ⟨k, hk, rfl⟩ := List.mem_map.1 hkf
    show reduce_prix _ = _
    rw [reduce_prix_eq_spec]
    rfl

/-- C1 witness: the concrete group with medians `[30, 50]` reports `40`. -/
theorem median_policy_witness :
    wsum ∈ get_arrondissement_summary wrows none none ∧ wsum.prix_m2_med = 40 := by
  have hmem : wsum ∈ get_arrondissement_summary wrows none none := by decide
  have h := median_policy.1 wrows none none wsum hmem
  refine ⟨hmem, ?_⟩
  rw [h]
  decide

/-- C3: with a year filter, every summary record carries that year, and the
summary's `nb_ventes` totals add up to the matching raw records' counts. -/
theorem summary_year_and_sale_count_sum (rows : List Row) (Y : ℤ) :
    (∀ rec ∈ get_arrondissement_summary rows (some Y) none, rec.annee = Y)
    ∧ ((get_arrondissement_summary rows (some Y) none).map
        SummaryRec.nb_ventes).sum
      = ((rows.filter (fun r => decide (r.annee = Y))).map Row.nb_ventes).sum := by
  constructor
  · intro rec hrec
    unfold get_arrondissement_summary at hrec
    rw [List.mem_mergeSort] at hrec
    obtain ⟨kf, hkf, rfl⟩ := List.mem_map.1 hrec
    obtain ⟨k, hk, rfl⟩ := List.mem_map.1 hkf
    obtain ⟨r, hr, hkey⟩ := exists_of_mem_keysInOrder hk
    rw [filter_rows_year_none] at hr
    have hY : r.annee = Y := by
      have h2 := (List.mem_filter.1 hr).2
      simpa using h2
    show k.2.1 = Y
    rw [← hkey]
    exact hY
  · unfold get_arrondissement_summary
    rw [((List.mergeSort_perm
      ((fibers rowKey (filter_rows rows (some Y) none)).map summaryOfFiber)
      summaryLE).map SummaryRec.nb_ventes).sum_eq]
    rw [List.map_map]
    show ((fibers rowKey (filter_rows rows (some Y) none)).map
      (fun kf => (kf.2.map Row.nb_ventes).sum)).sum = _
    rw [sum_fibers rowKey Row.nb_ventes (filter_rows rows (some Y) none)]
    rw [filter_rows_year_none]

/-- C3 witness at the sample data for year 2021. -/
theorem summary_year_and_sale_count_sum_witness :
    wsum.annee = 2021
    ∧ ((get_arrondissement_summary wrows (some 2021) none).map
        SummaryRec.nb_ventes).sum
      = ((wrows.filter (fun r => decide (r.annee = (2021 : ℤ)))).map
          Row.nb_ventes).sum :=
  ⟨(summary_year_and_sale_count_sum wrows 2021).1 wsum (by decide),
    (summary_year_and_sale_count_sum wrows 2021).2⟩

theorem zfillChars_length (l : List Char) (w : ℕ) (h : l.length ≤ w) :
    (zfillChars l w).length = w := by
  unfold zfillChars
  by_cases hw : w ≤ l.length
  · rw [if_pos hw]
    omega
  · rw [if_neg hw]
    cases l with
    | nil => simp
    | cons c cs =>
      show (if c = '+' ∨ c = '-' then c :: (List.replicate (w - (c :: cs).length) '0' ++ cs)
        else List.replicate (w - (c :: cs).length) '0' ++ (c :: cs)).length = w
      by_cases hc : c = '+' ∨ c = '-'
      · rw [if_pos hc]
        simp only [List.length_cons, List.length_append, List.length_replicate]
        simp at hw
        omega
      · rw [if_neg hc]
        simp only [List.length_cons, List.length_append, List.length_replicate]
        simp at hw
        omega

/-- C6 counterexample: the six-character input `"123456"` is not normalized
to five characters — `zfill` never truncates — and matching then uses the
six-character code unchanged, so it matches a six-character record. -/
theorem zfill_no_truncation_counterexample :
    (zfill "123456" 5).length = 6
    ∧ get_arrondissement_timeseries [row6] "123456" none ≠ [] :=
  ⟨by decide, by decide⟩

/-- C6 amended: inputs of at most five characters are normalized to exactly
five characters by left zero-padding before matching (longer inputs are
matched unchanged), and `"101"` matches records whose `commune_code` is
`"00101"`. -/
theorem zfill_pads_short_codes :
    (∀ s : String, s.length ≤ 5 → (zfill s 5).length = 5)
    ∧ (∀ s : String, 5 ≤ s.length → zfill s 5 = s)
    ∧ (∀ (rows : List Row) (tl : Option String),
        get_arrondissement_timeseries rows "101" tl
          = get_arrondissement_timeseries rows "00101" tl)
    ∧ get_arrondissement_timeseries [row101] "101" none ≠ [] := by
  refine ⟨?_, ?_, ?_, by decide⟩
  · intro s hs
    show (zfillChars s.toList 5).length = 5
    exact zfillChars_length s.toList 5 hs
  · intro s hs
    have hs2 : 5 ≤ s.toList.length := hs
    unfold zfill zfillChars
    rw [if_pos hs2]
    rfl
  · intro rows tl
    have hz : zfill "101" 5 = zfill "00101" 5 := by decide
    unfold get_arrondissement_timeseries ts_rows
    rw [hz]

/-- C6 witness: `"101"` is padded to five characters and matches the
`"00101"` record. -/
theorem zfill_pads_short_codes_witness :
    (zfill "101" 5).length = 5
    ∧ get_arrondissement_timeseries [row101] "101" none
        = get_arrondissement_timeseries [row101] "00101" none :=
  ⟨zfill_pads_short_codes.1 "101" (by decide),
    zfill_pads_short_codes.2.2.1 [row101] none⟩

/-- C8: after `invalidate()` followed by `load()` on an unchanged snapshot
file, every query — years, summary, time series, with any arguments —
returns exactly what it returned before the invalidation. -/
theorem invalidate_load_roundtrip (s : Store) (hwf : wellFormed s) (s' : Store)
    (h : refresh_cache s = Except.ok s') :
    query_years s' = query_years s
    ∧ (∀ (year : Option ℤ) (tl : Option String),
        query_summary s' year tl = query_summary s year tl)
    ∧ (∀ (code : String) (tl : Option String),
        query_timeseries s' code tl = query_timeseries s code tl) := by
  cases hl : load_rows s.file with
  | error e =>
    exfalso
    simp [refresh_cache, invalidate, loadOp, hl, Except.map] at h
  | ok rows =>
    simp [refresh_cache, invalidate, loadOp, hl, Except.map] at h
    subst h
    have h2 : loadOp { file := s.file, cache := some rows } =
        Except.ok (rows, { file := s.file, cache := some rows }) := rfl
    obtain ⟨st, h1⟩ := loadOp_result s hwf rows hl
    refine ⟨?_, fun year tl => ?_, fun code tl => ?_⟩ <;>
      simp [query_years, query_summary, query_timeseries, h1, h2, Except.map]

/-- C8 witness: invalidate-and-reload on the sample store leaves the years
query unchanged. -/
theorem invalidate_load_roundtrip_witness :
    query_years wstore2 = query_years wstore :=
  (invalidate_load_roundtrip wstore (fun c hc => by simp [wstore] at hc) wstore2
    (by decide)).1

end DVF
